import Mathlib

/-!
Verification of the Lead-Miner enrichment and scoring pipeline.

The TypeScript sources are embedded shallowly:
* JavaScript strings are `List Char` (`JsStr`); the ASCII-relevant parts of
  `trim`, `toUpperCase`, `toLowerCase`, `includes`, `startsWith`, `endsWith`,
  `split` are implemented directly on character lists.
* Host primitives that are not part of the repository (the WHATWG `URL`
  parser, the `RegExp` engine, `fetch`, DNS `resolveMx`, timers) are modeled
  as explicit parameters: a `parseHost` function standing for
  `new URL(u).hostname` (`none` = parse failure / thrown TypeError), lists of
  regex-match results, a boolean MX-lookup result, and fetch outcomes.
* JavaScript `Set` insertion-order semantics are modeled by `setAdd` /
  `setDedup`; plain-object records keyed by strings are association lists.
-/

namespace LeadMiner

/-- JavaScript string, modeled as a list of characters. -/
abbrev JsStr := List Char

/-- Embed a Lean string literal as a `JsStr`. -/
def str (s : String) : JsStr := s.data

/-- Whitespace test used by `trim` and `\s` (ASCII model: space, tab, LF, CR). -/
def isWsChar (c : Char) : Bool := c == ' ' || c == '\t' || c == '\n' || c == '\r'

/-- `String.prototype.trim`: drop whitespace from both ends. -/
def jsTrim (l : JsStr) : JsStr := ((l.dropWhile isWsChar).reverse.dropWhile isWsChar).reverse

/-- ASCII model of `String.prototype.toUpperCase` on one character. -/
def upChar (c : Char) : Char :=
  if c = 'a' then 'A' else if c = 'b' then 'B' else if c = 'c' then 'C'
  else if c = 'd' then 'D' else if c = 'e' then 'E' else if c = 'f' then 'F'
  else if c = 'g' then 'G' else if c = 'h' then 'H' else if c = 'i' then 'I'
  else if c = 'j' then 'J' else if c = 'k' then 'K' else if c = 'l' then 'L'
  else if c = 'm' then 'M' else if c = 'n' then 'N' else if c = 'o' then 'O'
  else if c = 'p' then 'P' else if c = 'q' then 'Q' else if c = 'r' then 'R'
  else if c = 's' then 'S' else if c = 't' then 'T' else if c = 'u' then 'U'
  else if c = 'v' then 'V' else if c = 'w' then 'W' else if c = 'x' then 'X'
  else if c = 'y' then 'Y' else if c = 'z' then 'Z' else c

/-- ASCII model of `String.prototype.toLowerCase` on one character. -/
def downChar (c : Char) : Char :=
  if c = 'A' then 'a' else if c = 'B' then 'b' else if c = 'C' then 'c'
  else if c = 'D' then 'd' else if c = 'E' then 'e' else if c = 'F' then 'f'
  else if c = 'G' then 'g' else if c = 'H' then 'h' else if c = 'I' then 'i'
  else if c = 'J' then 'j' else if c = 'K' then 'k' else if c = 'L' then 'l'
  else if c = 'M' then 'm' else if c = 'N' then 'n' else if c = 'O' then 'o'
  else if c = 'P' then 'p' else if c = 'Q' then 'q' else if c = 'R' then 'r'
  else if c = 'S' then 's' else if c = 'T' then 't' else if c = 'U' then 'u'
  else if c = 'V' then 'v' else if c = 'W' then 'w' else if c = 'X' then 'x'
  else if c = 'Y' then 'y' else if c = 'Z' then 'z' else c

/-- `String.prototype.toUpperCase` (ASCII model). -/
def jsToUpper (l : JsStr) : JsStr := l.map upChar

/-- `String.prototype.toLowerCase` (ASCII model). -/
def jsToLower (l : JsStr) : JsStr := l.map downChar

/-- `String.prototype.startsWith`: is `p` a prefix of `l`? -/
def jsStartsWith : JsStr → JsStr → Bool
  | _, [] => true
  | [], _ :: _ => false
  | a :: l, b :: m => a == b && jsStartsWith l m

/-- `String.prototype.endsWith`: is `p` a suffix of `l`? -/
def jsEndsWith (l p : JsStr) : Bool := jsStartsWith l.reverse p.reverse

/-- `String.prototype.includes`: does `sub` occur contiguously in `l`? -/
def jsIncludes : JsStr → JsStr → Bool
  | [], sub => sub.isEmpty
  | l@(_ :: t), sub => jsStartsWith l sub || jsIncludes t sub

/-- JavaScript `Set.prototype.add`: append if not already present. -/
def setAdd [DecidableEq α] (l : List α) (x : α) : List α := if x ∈ l then l else l ++ [x]

/-- `Array.from(new Set(list))`: deduplicate keeping first occurrences in order. -/
def setDedup [DecidableEq α] (l : List α) : List α := l.foldl setAdd []

/-- `Math.max(lo, Math.min(hi, n))`, the clamp used throughout the sources. -/
def clamp (n lo hi : Int) : Int := max lo (min hi n)

/-! Basic lemmas about the string model. -/

theorem jsStartsWith_iff {l p : JsStr} : jsStartsWith l p = true ↔ p <+: l := by
  induction l generalizing p with
  | nil =>
    cases p with
    | nil => simp [jsStartsWith]
    | cons b m => simp [jsStartsWith]
  | cons a t ih =>
    cases p with
    | nil => simp [jsStartsWith]
    | cons b m =>
      simp only [jsStartsWith, Bool.and_eq_true, beq_iff_eq]
      constructor
      · rintro ⟨rfl, h⟩
        obtain ⟨r, rfl⟩ := ih.mp h
        exact ⟨r, rfl⟩
      · intro h
        rcases List.cons_prefix_cons.mp h with ⟨rfl, h2⟩
        exact ⟨rfl, ih.mpr h2⟩

theorem jsIncludes_iff {l sub : JsStr} : jsIncludes l sub = true ↔ sub <:+: l := by
  induction l with
  | nil =>
    simp [jsIncludes, List.isEmpty_iff]
  | cons a t ih =>
    simp only [jsIncludes, Bool.or_eq_true, jsStartsWith_iff, ih, List.infix_cons_iff]

theorem upChar_of_ws {c : Char} (h : isWsChar c = true) : isWsChar (upChar c) = true := by
  have hc : ((c = ' ' ∨ c = '\t') ∨ c = '\n') ∨ c = '\r' := by
    simpa [isWsChar] using h
  rcases hc with ((rfl | rfl) | rfl) | rfl <;> decide

/-- A nonempty whitespace-free string occurring in `map upChar l` still occurs after
dropping a whitespace prefix of `l`. -/
theorem infix_map_dropWhile_ws {sub : JsStr} (hne : sub ≠ [])
    (hns : ∀ c ∈ sub, isWsChar c = false) :
    ∀ {l : JsStr}, sub <:+: l.map upChar → sub <:+: (l.dropWhile isWsChar).map upChar := by
  intro l
  induction l with
  | nil => simp
  | cons a t ih =>
    intro h
    by_cases ha : isWsChar a = true
    · rw [List.dropWhile_cons_of_pos ha]
      rcases List.infix_cons_iff.mp (by simpa using h) with hp | hi
      · exfalso
        cases sub with
        | nil => exact hne rfl
        | cons s0 stail =>
          rcases List.cons_prefix_cons.mp hp with ⟨rfl, -⟩
          have := hns (upChar a) (by simp)
          rw [upChar_of_ws ha] at this
          exact Bool.true_eq_false.mp this
      · exact ih hi
    · rw [List.dropWhile_cons_of_neg ha]
      simpa using h

/-- A nonempty whitespace-free string occurring in the uppercasing of `l` also
occurs in the uppercasing of `jsTrim l`. -/
theorem infix_upper_trim {sub l : JsStr} (hne : sub ≠ [])
    (hns : ∀ c ∈ sub, isWsChar c = false)
    (h : sub <:+: jsToUpper l) : sub <:+: jsToUpper (jsTrim l) := by
  unfold jsToUpper at *
  have h1 : sub <:+: (l.dropWhile isWsChar).map upChar := infix_map_dropWhile_ws hne hns h
  have h2 : sub.reverse <:+: ((l.dropWhile isWsChar).reverse).map upChar := by
    have := h1.reverse
    simpa [List.map_reverse] using this
  have h3 : sub.reverse <:+:
      (((l.dropWhile isWsChar).reverse).dropWhile isWsChar).map upChar :=
    infix_map_dropWhile_ws (by simpa using hne) (by intro c hc; exact hns c (by simpa using hc)) h2
  have h4 := h3.reverse
  rw [← List.map_reverse] at h4
  simpa [jsTrim] using h4

theorem mem_setAdd [DecidableEq α] {l : List α} {x y : α} :
    y ∈ setAdd l x ↔ y ∈ l ∨ y = x := by
  unfold setAdd
  split_ifs with h
  · constructor
    · exact Or.inl
    · rintro (hy | rfl)
      · exact hy
      · exact h
  · simp

theorem mem_foldl_setAdd [DecidableEq α] (l acc : List α) (y : α) :
    y ∈ l.foldl setAdd acc ↔ y ∈ acc ∨ y ∈ l := by
  induction l generalizing acc with
  | nil => simp
  | cons a t ih =>
    simp only [List.foldl_cons, ih, mem_setAdd, List.mem_cons]
    tauto

theorem mem_setDedup [DecidableEq α] {l : List α} {y : α} :
    y ∈ setDedup l ↔ y ∈ l := by
  unfold setDedup
  rw [mem_foldl_setAdd]
  simp

theorem clamp_le {n lo hi b : Int} (hlo : lo ≤ b) (hn : n ≤ b) : clamp n lo hi ≤ b := by
  unfold clamp
  rw [max_le_iff]
  exact ⟨hlo, le_trans (min_le_right _ _) hn⟩

theorem clamp_nonneg {n hi : Int} : 0 ≤ clamp n 0 hi := le_max_left _ _

theorem clamp_le_hi {n lo hi : Int} (h : lo ≤ hi) : clamp n lo hi ≤ hi := by
  unfold clamp
  rw [max_le_iff]
  exact ⟨h, min_le_left _ _⟩

/-!
## src/scoring.ts

`rating` and `user_ratings_total` are JavaScript numbers; they are modeled as
rationals (all comparisons in the source are order comparisons against exact
decimal constants, and all score arithmetic is on small integers, where
JavaScript floats are exact). The `signals` record is an insertion-ordered
association list; its keys are pairwise distinct in every code path.
-/

/-- Input of `computeAutomationNeedScoreDetailed` (`ScoreInput` in src/scoring.ts);
`none` models both `undefined` and `null`. -/
structure ScoreInput where
  rating : Option Rat
  user_ratings_total : Option Rat
  website : Option JsStr
  phone : Option JsStr
  business_status : Option JsStr

/-- Output of `computeAutomationNeedScoreDetailed` (`ScoreOutput` in src/scoring.ts). -/
structure ScoreOutput where
  score : Int
  reasons : List JsStr
  signals : List (JsStr × Int)
deriving DecidableEq

/-- One signal block of the scorer: its record entries, reason strings and points. -/
structure SignalPart where
  signals : List (JsStr × Int)
  reasons : List JsStr
  points : Int

/-- `builderPenalty` from src/scoring.ts. -/
def builderPenalty (website : JsStr) : Int :=
  let w := jsToLower website
  if jsIncludes w (str "wixsite") || jsIncludes w (str "wix.com") ||
      jsIncludes w (str "square.site") || jsIncludes w (str "squarespace") ||
      jsIncludes w (str "weebly") || jsIncludes w (str "godaddysites") ||
      jsIncludes w (str "webflow") then 8
  else 0

/-- Section "1) Website signal" of `computeAutomationNeedScoreDetailed`. -/
def websiteSignal (website : JsStr) : SignalPart :=
  if website.isEmpty then
    { signals := [(str "no_website", 25)],
      reasons := [str "No website (big automation + marketing gap)"], points := 25 }
  else
    let bp := builderPenalty website
    if 0 < bp then
      { signals := [(str "site_builder", bp)],
        reasons := [str "Website looks like a site-builder (upgrade opportunity)"], points := bp }
    else
      { signals := [(str "has_website", 0)], reasons := [], points := 0 }

/-- Section "2) Reviews volume" of `computeAutomationNeedScoreDetailed`. -/
def reviewSignal (reviews : Rat) : SignalPart :=
  let p : Int × JsStr :=
    if reviews ≤ 5 then (18, str "Very low review volume (weak online footprint)")
    else if reviews ≤ 20 then (14, str "Low review volume (weak online footprint)")
    else if reviews ≤ 60 then (10, str "Moderate review volume (growth opportunity)")
    else if reviews ≤ 150 then (6, str "Decent review volume (established presence)")
    else (2, str "High review volume (strong presence)")
  { signals := [(str "low_reviews", p.1)], reasons := [p.2], points := p.1 }

/-- Section "3) Rating penalty" of `computeAutomationNeedScoreDetailed`. -/
def ratingSignal (rating : Rat) : SignalPart :=
  let p : Int × JsStr :=
    if 0 < rating then
      if rating < 3.6 then (18, str "Poor rating (major ops / CX gap)")
      else if rating < 4 then (14, str "Below average rating (ops / CX improvement needed)")
      else if rating < 4.3 then (9, str "Mediocre rating (ops / CX gap)")
      else if rating < 4.6 then (4, str "Good rating (minor improvement opportunities)")
      else (1, str "Excellent rating (well-established business)")
    else (6, str "No rating data (possible low activity / incomplete profile)")
  { signals := [(str "rating_gap", p.1)], reasons := [p.2], points := p.1 }

/-- Section "4) Missing phone" of `computeAutomationNeedScoreDetailed`. -/
def phoneSignal (phone : JsStr) : SignalPart :=
  if phone.isEmpty then
    { signals := [(str "no_phone", 8)],
      reasons := [str "No phone listed (conversion friction)"], points := 8 }
  else
    { signals := [(str "phone_present", 0)], reasons := [], points := 0 }

/-- `computeAutomationNeedScoreDetailed` from src/scoring.ts. `Math.round` of the
final score is the identity here since every contribution is an integer. -/
def computeAutomationNeedScoreDetailed (input : ScoreInput) : ScoreOutput :=
  let rating := input.rating.getD 0
  let reviews := input.user_ratings_total.getD 0
  let website := jsTrim (input.website.getD (str ""))
  let phone := jsTrim (input.phone.getD (str ""))
  let status := jsTrim (input.business_status.getD (str ""))
  if jsIncludes (jsToUpper status) (str "CLOSED_PERMANENTLY") then
    { score := 0, reasons := [str "Permanently closed (skip)"], signals := [(str "closed", 100)] }
  else
    let w := websiteSignal website
    let rv := reviewSignal reviews
    let rt := ratingSignal rating
    let ph := phoneSignal phone
    let score1 := w.points + rv.points + rt.points + ph.points
    let isOp := jsIncludes (jsToUpper status) (str "OPERATIONAL")
    let score2 := if isOp then score1 - 2 else score1
    let opSignals : List (JsStr × Int) := if isOp then [(str "operational", -2)] else []
    let opReasons : List JsStr :=
      if isOp then
        (if 20 < score2 then [str "Currently operational (active business)"] else [])
      else []
    let signals := w.signals ++ rv.signals ++ rt.signals ++ ph.signals ++ opSignals
    let reasons := w.reasons ++ rv.reasons ++ rt.reasons ++ ph.reasons ++ opReasons
    let score := clamp score2 0 100
    let dedupReasons := setDedup reasons
    let finalReasons :=
      if 0 < score ∧ dedupReasons.isEmpty then [str "Automation opportunity detected"]
      else dedupReasons
    { score := score, reasons := finalReasons, signals := signals }

/-- `computeAutomationNeedScore` from src/scoring.ts. -/
def computeAutomationNeedScore (input : ScoreInput) : Int :=
  (computeAutomationNeedScoreDetailed input).score

theorem builderPenalty_cases (w : JsStr) : builderPenalty w = 0 ∨ builderPenalty w = 8 := by
  simp only [builderPenalty]
  split_ifs <;> simp

theorem websiteSignal_points_le (w : JsStr) : (websiteSignal w).points ≤ 25 := by
  unfold websiteSignal
  by_cases h1 : w.isEmpty
  · simp [h1]
  · rcases builderPenalty_cases w with h | h <;> simp [h1, h]

theorem reviewSignal_points_le (r : Rat) : (reviewSignal r).points ≤ 18 := by
  unfold reviewSignal
  split_ifs <;> norm_num

theorem ratingSignal_points_le (r : Rat) : (ratingSignal r).points ≤ 18 := by
  unfold ratingSignal
  split_ifs <;> norm_num

theorem phoneSignal_points_le (p : JsStr) : (phoneSignal p).points ≤ 8 := by
  unfold phoneSignal
  split_ifs <;> norm_num

/-- C2: if `business_status` contains "CLOSED_PERMANENTLY" after uppercasing, then
`computeAutomationNeedScoreDetailed` returns score exactly 0, regardless of
`rating`, `user_ratings_total`, `website` and `phone`. -/
theorem closed_permanently_scores_zero (input : ScoreInput)
    (h : jsIncludes (jsToUpper (input.business_status.getD (str "")))
      (str "CLOSED_PERMANENTLY") = true) :
    (computeAutomationNeedScoreDetailed input).score = 0 := by
  have h1 : jsIncludes (jsToUpper (jsTrim (input.business_status.getD (str ""))))
      (str "CLOSED_PERMANENTLY") = true := by
    rw [jsIncludes_iff]
    exact infix_upper_trim (by decide) (by decide) (jsIncludes_iff.mp h)
  unfold computeAutomationNeedScoreDetailed
  simp [h1]

/-- Witness for C2: a permanently closed business with a rating, reviews, website
and phone still scores 0. -/
theorem closed_permanently_scores_zero_witness :
    (computeAutomationNeedScoreDetailed
      ⟨some 4.8, some 250, some (str "https://acme.com"), some (str "555-0100"),
        some (str "CLOSED_PERMANENTLY")⟩).score = 0 :=
  closed_permanently_scores_zero _ (by decide)

/-- C3 counterexample: a status equal to the phrase "permanently closed" does NOT
short-circuit the scorer (the code tests for the enum token "CLOSED_PERMANENTLY"):
with all other fields absent the score is 57 with four signals, not 0 with one. -/
theorem permanently_closed_phrase_not_shortcircuited :
    (computeAutomationNeedScoreDetailed ⟨none, none, none, none,
        some (str "permanently closed")⟩).score = 57 ∧
      (computeAutomationNeedScoreDetailed ⟨none, none, none, none,
        some (str "permanently closed")⟩).signals.length = 4 ∧
      (computeAutomationNeedScoreDetailed ⟨none, none, none, none,
        some (str "permanently closed")⟩).score ≠ 0 := by
  have hrv : reviewSignal 0 =
      { signals := [(str "low_reviews", 18)],
        reasons := [str "Very low review volume (weak online footprint)"], points := 18 } := by
    unfold reviewSignal
    norm_num
  have hrt : ratingSignal 0 =
      { signals := [(str "rating_gap", 6)],
        reasons := [str "No rating data (possible low activity / incomplete profile)"],
        points := 6 } := by
    unfold ratingSignal
    norm_num
  unfold computeAutomationNeedScoreDetailed
  dsimp only [Option.getD]
  rw [hrv, hrt]
  decide

/-- C3 amended: if the operating status contains "CLOSED_PERMANENTLY" after
uppercasing (the Google enum token, not the phrase "permanently closed"), the
scorer short-circuits: score 0, the single reason "Permanently closed (skip)",
and a signals map holding only the closed marker. -/
theorem closed_permanently_shortcircuits (input : ScoreInput)
    (h : jsIncludes (jsToUpper (input.business_status.getD (str "")))
      (str "CLOSED_PERMANENTLY") = true) :
    computeAutomationNeedScoreDetailed input =
      { score := 0, reasons := [str "Permanently closed (skip)"],
        signals := [(str "closed", 100)] } := by
  have h1 : jsIncludes (jsToUpper (jsTrim (input.business_status.getD (str ""))))
      (str "CLOSED_PERMANENTLY") = true := by
    rw [jsIncludes_iff]
    exact infix_upper_trim (by decide) (by decide) (jsIncludes_iff.mp h)
  unfold computeAutomationNeedScoreDetailed
  simp [h1]

/-- Witness for the amended C3. -/
theorem closed_permanently_shortcircuits_witness :
    computeAutomationNeedScoreDetailed
        ⟨some 2.1, some 3, none, none, some (str "CLOSED_PERMANENTLY")⟩ =
      { score := 0, reasons := [str "Permanently closed (skip)"],
        signals := [(str "closed", 100)] } :=
  closed_permanently_shortcircuits _ (by decide)

/-- Full evaluation of the scorer on the C6 candidate (shared helper). -/
theorem c6_eval_core :
    computeAutomationNeedScoreDetailed
        ⟨some 3.2, some 3, none, none, some (str "OPERATIONAL")⟩ =
      { score := 67,
        reasons :=
          [str "No website (big automation + marketing gap)",
           str "Very low review volume (weak online footprint)",
           str "Poor rating (major ops / CX gap)",
           str "No phone listed (conversion friction)",
           str "Currently operational (active business)"],
        signals :=
          [(str "no_website", 25), (str "low_reviews", 18), (str "rating_gap", 18),
           (str "no_phone", 8), (str "operational", -2)] } := by
  have hrv : reviewSignal 3 =
      { signals := [(str "low_reviews", 18)],
        reasons := [str "Very low review volume (weak online footprint)"], points := 18 } := by
    unfold reviewSignal
    norm_num
  have hrt : ratingSignal 3.2 =
      { signals := [(str "rating_gap", 18)],
        reasons := [str "Poor rating (major ops / CX gap)"], points := 18 } := by
    unfold ratingSignal
    norm_num
  unfold computeAutomationNeedScoreDetailed
  dsimp only [Option.getD]
  rw [hrv, hrt]
  decide

/-- C6 counterexample: the no-website / 3-reviews / rating-3.2 / no-phone /
operational candidate scores 67, but the number of recorded reasons is 5, not 4
(the four positive-signal reasons plus the operational-discount reason). -/
theorem c6_reason_count_is_five_not_four :
    (computeAutomationNeedScoreDetailed
        ⟨some 3.2, some 3, none, none, some (str "OPERATIONAL")⟩).score = 67 ∧
      (computeAutomationNeedScoreDetailed
        ⟨some 3.2, some 3, none, none, some (str "OPERATIONAL")⟩).reasons.length ≠ 4 := by
  have h := c6_eval_core
  rw [h]
  decide

/-- C6 amended: the no-website / 3-reviews / rating-3.2 / no-phone / operational
candidate scores 25+18+18+8-2 = 67 and records exactly 5 reasons (none
duplicated): the four positive-signal reasons plus the operational-discount
reason, the latter included because the running total 67 exceeds 20. -/
theorem c6_score_67_with_five_reasons :
    computeAutomationNeedScoreDetailed
        ⟨some 3.2, some 3, none, none, some (str "OPERATIONAL")⟩ =
      { score := 67,
        reasons :=
          [str "No website (big automation + marketing gap)",
           str "Very low review volume (weak online footprint)",
           str "Poor rating (major ops / CX gap)",
           str "No phone listed (conversion friction)",
           str "Currently operational (active business)"],
        signals :=
          [(str "no_website", 25), (str "low_reviews", 18), (str "rating_gap", 18),
           (str "no_phone", 8), (str "operational", -2)] } :=
  c6_eval_core

/-- C10: the automation-need score never exceeds 69 = 25 + 18 + 18 + 8 (so the
clamp at 100 is never active, and a minimum-score policy above 69 rejects every
candidate). -/
theorem automation_score_le_69 (input : ScoreInput) :
    (computeAutomationNeedScoreDetailed input).score ≤ 69 := by
  have hw := websiteSignal_points_le (jsTrim (input.website.getD (str "")))
  have hrv := reviewSignal_points_le (input.user_ratings_total.getD 0)
  have hrt := ratingSignal_points_le (input.rating.getD 0)
  have hph := phoneSignal_points_le (jsTrim (input.phone.getD (str "")))
  simp only [computeAutomationNeedScoreDetailed]
  split
  · norm_num
  · dsimp only
    split_ifs with hop
    · exact clamp_le (by norm_num) (by omega)
    · exact clamp_le (by norm_num) (by omega)

/-!
## src/websiteVerification.ts

`parseHost` models the host primitive `new URL(u).hostname`; `none` stands for
the constructor throwing on an unparseable URL. The `details` field of the
result is always the empty object on the quick path and is omitted.
-/

/-- Result shape of `quickVerifyWebsite` (src/websiteVerification.ts). -/
structure WebsiteVerificationResult where
  isValid : Bool
  isLikelySpam : Bool
  isSuspicious : Bool
  flags : List JsStr
  trustScore : Int
deriving DecidableEq

/-- `SPAM_DOMAINS` from src/websiteVerification.ts. -/
def SPAM_DOMAINS : List JsStr :=
  [str "bit.ly", str "tinyurl.com", str "goo.gl", str "ow.ly", str "short.link",
   str "spam-domain.com"]

/-- `SUSPICIOUS_KEYWORDS` from src/websiteVerification.ts. -/
def SUSPICIOUS_KEYWORDS : List JsStr :=
  [str "casino", str "viagra", str "porn", str "xxx", str "loan", str "crypto",
   str "bitcoin", str "pharma", str "click here", str "buy now", str "limited time"]

/-- The `url.startsWith("http") ? url : "https://" + url` idiom. -/
def withScheme (url : JsStr) : JsStr :=
  if jsStartsWith url (str "http") then url else str "https://" ++ url

/-- `extractDomain` from src/websiteVerification.ts: hostname of the URL,
lowercased; empty string when parsing throws. -/
def extractDomainWV (parseHost : JsStr → Option JsStr) (url : JsStr) : JsStr :=
  match parseHost (withScheme url) with
  | some h => jsToLower h
  | none => str ""

/-- `isSpamDomain` from src/websiteVerification.ts. -/
def isSpamDomain (domain : JsStr) : Bool :=
  SPAM_DOMAINS.any fun spam => jsIncludes domain spam

/-- `hasSuspiciousKeywords` from src/websiteVerification.ts. -/
def hasSuspiciousKeywords (text : JsStr) : Bool :=
  SUSPICIOUS_KEYWORDS.any fun kw => jsIncludes (jsToLower text) kw

/-- One `\d{1,3}\.` group of the IPv4 regex. Since digits and '.' are disjoint,
the backtracking of the greedy quantifier is deterministic: the group matches
exactly when the maximal leading digit run of `l` has length 1..3 and is
followed by '.'. -/
def chompDigitsDot (l : JsStr) : Option JsStr :=
  let ds := l.takeWhile Char.isDigit
  if 1 ≤ ds.length ∧ ds.length ≤ 3 then
    match l.drop ds.length with
    | '.' :: rest => some rest
    | _ => none
  else none

/-- The test `/^\d{1,3}\.\d{1,3}\.\d{1,3}\.\d{1,3}/.test(domain)` (anchored at
the start only). -/
def ipv4Test (l : JsStr) : Bool :=
  match chompDigitsDot l with
  | none => false
  | some l1 =>
    match chompDigitsDot l1 with
    | none => false
    | some l2 =>
      match chompDigitsDot l2 with
      | none => false
      | some l3 => 1 ≤ (l3.takeWhile Char.isDigit).length

/-- The `suspiciousTLDs` list local to `quickVerifyWebsite`. -/
def suspiciousTLDs : List JsStr :=
  [str ".tk", str ".ml", str ".ga", str ".cf", str ".gq", str ".xyz", str ".top", str ".win"]

/-- `quickVerifyWebsite` from src/websiteVerification.ts. Each penalty check is
independent; the flag list keeps the source evaluation order. -/
def quickVerifyWebsite (parseHost : JsStr → Option JsStr) (url : Option JsStr) :
    WebsiteVerificationResult :=
  match url with
  | none =>
    { isValid := false, isLikelySpam := false, isSuspicious := false,
      flags := [str "No website provided"], trustScore := 0 }
  | some u =>
    if (jsTrim u).isEmpty then
      { isValid := false, isLikelySpam := false, isSuspicious := false,
        flags := [str "No website provided"], trustScore := 0 }
    else
      let cleanUrl := jsTrim u
      let domain := extractDomainWV parseHost cleanUrl
      if domain.isEmpty then
        { isValid := false, isLikelySpam := false, isSuspicious := true,
          flags := [str "Invalid URL format"], trustScore := 0 }
      else
        let c1 := isSpamDomain domain
        let c2 := suspiciousTLDs.any fun tld => jsEndsWith domain tld
        let c3 := ipv4Test domain
        let c4 := decide (4 < (List.splitOn '.' domain).length)
        let c5 := hasSuspiciousKeywords cleanUrl
        let c6 := decide (200 < cleanUrl.length)
        let flags :=
          (if c1 then [str "Known spam/redirect domain"] else []) ++
          (if c2 then [str "Suspicious TLD"] else []) ++
          (if c3 then [str "IP address instead of domain"] else []) ++
          (if c4 then [str "Excessive subdomains"] else []) ++
          (if c5 then [str "Contains suspicious keywords"] else []) ++
          (if c6 then [str "Unusually long URL"] else [])
        let pens : Int :=
          (if c1 then 80 else 0) + (if c2 then 30 else 0) + (if c3 then 50 else 0) +
          (if c4 then 20 else 0) + (if c5 then 40 else 0) + (if c6 then 15 else 0)
        let ts := clamp (100 - pens) 0 100
        { isValid := decide (50 ≤ ts), isLikelySpam := decide (ts < 30),
          isSuspicious := decide (ts < 50), flags := flags, trustScore := ts }

/-- C1 counterexample: on input null the verdict has trustScore 0 but
`isLikelySpam = false` and `isSuspicious = false`, so the biconditionals
`isLikelySpam ↔ trustScore < 30` and `isSuspicious ↔ trustScore < 50` both fail. -/
theorem quickVerify_null_breaks_biconditionals :
    (quickVerifyWebsite (fun _ => none) none).trustScore = 0 ∧
      (quickVerifyWebsite (fun _ => none) none).isLikelySpam = false ∧
      (quickVerifyWebsite (fun _ => none) none).isSuspicious = false ∧
      ¬ ((quickVerifyWebsite (fun _ => none) none).isLikelySpam = true ↔
          (quickVerifyWebsite (fun _ => none) none).trustScore < 30) ∧
      ¬ ((quickVerifyWebsite (fun _ => none) none).isSuspicious = true ↔
          (quickVerifyWebsite (fun _ => none) none).trustScore < 50) := by
  decide

/-- C1 amended: for every parse primitive and input url, the trust score is in
[0,100] and `isValid ↔ trustScore ≥ 50`; whenever the (trimmed) url is nonempty,
`isSuspicious ↔ trustScore < 50`; and whenever additionally the domain parses,
`isLikelySpam ↔ trustScore < 30` as well. For null/empty input both
`isLikelySpam` and `isSuspicious` are hard-coded false at trust score 0, and for
an unparseable url `isLikelySpam` is hard-coded false at trust score 0. -/
theorem quickVerify_invariants (parseHost : JsStr → Option JsStr) (url : Option JsStr) :
    (0 ≤ (quickVerifyWebsite parseHost url).trustScore ∧
        (quickVerifyWebsite parseHost url).trustScore ≤ 100) ∧
      ((quickVerifyWebsite parseHost url).isValid = true ↔
        50 ≤ (quickVerifyWebsite parseHost url).trustScore) ∧
      (∀ u, url = some u → (jsTrim u).isEmpty = false →
        ((quickVerifyWebsite parseHost url).isSuspicious = true ↔
          (quickVerifyWebsite parseHost url).trustScore < 50)) ∧
      (∀ u, url = some u → (jsTrim u).isEmpty = false →
        (extractDomainWV parseHost (jsTrim u)).isEmpty = false →
        ((quickVerifyWebsite parseHost url).isLikelySpam = true ↔
          (quickVerifyWebsite parseHost url).trustScore < 30)) := by
  cases url with
  | none => simp [quickVerifyWebsite]
  | some u =>
    by_cases h1 : (jsTrim u).isEmpty
    · have h1e : jsTrim u = [] := List.isEmpty_iff.mp h1
      simp [quickVerifyWebsite, h1, h1e]
    · by_cases h2 : (extractDomainWV parseHost (jsTrim u)).isEmpty
      · have h2e : extractDomainWV parseHost (jsTrim u) = [] := List.isEmpty_iff.mp h2
        simp [quickVerifyWebsite, h1, h2, h2e]
      · simp only [quickVerifyWebsite, h1, h2, Bool.false_eq_true, if_false,
          decide_eq_true_eq]
        refine ⟨⟨clamp_nonneg, clamp_le_hi (by norm_num)⟩, ?_, ?_, ?_⟩ <;> simp

/-- Witness for the amended C1 at a concrete parse primitive and url. -/
theorem quickVerify_invariants_witness :
    (jsTrim (str "https://example.com")).isEmpty = false ∧
      (extractDomainWV (fun _ => some (str "example.com"))
        (jsTrim (str "https://example.com"))).isEmpty = false ∧
      ((quickVerifyWebsite (fun _ => some (str "example.com"))
          (some (str "https://example.com"))).isLikelySpam = true ↔
        (quickVerifyWebsite (fun _ => some (str "example.com"))
          (some (str "https://example.com"))).trustScore < 30) :=
  ⟨by decide, by decide,
    (quickVerify_invariants (fun _ => some (str "example.com"))
        (some (str "https://example.com"))).2.2.2 _ rfl (by decide) (by decide)⟩

/-!
## src/emailDiscovery.ts

Host primitives modeled as parameters: `parseHost` as before (this file's
`extractDomain` additionally strips a leading "www."), the MX lookup
`checkMXRecords(domain)` as one boolean (the source resolves it exactly once per
discovery run), and the two `RegExp` scans of the fetched HTML inside
`scrapeEmailsFromWebsite` as input lists (`textMatches` for the bare
email-shaped matches, `mailtoTargets` for the captured `mailto:` link targets);
the junk filter applied to the text matches is part of the source and is
implemented. Plain-object records are insertion-ordered association lists
(`rset` assigns, `rget` reads).
-/

/-- Record assignment `r[k] = v` on a string-keyed plain object. -/
def rset {V : Type} (r : List (JsStr × V)) (k : JsStr) (v : V) : List (JsStr × V) :=
  if (r.lookup k).isSome then r.map (fun p => if p.1 == k then (k, v) else p)
  else r ++ [(k, v)]

/-- Record read `r[k]` (`none` = `undefined`). -/
def rget {V : Type} (r : List (JsStr × V)) (k : JsStr) : Option V := r.lookup k

/-- Validation verdicts of the email engine. -/
inductive Validation where
  | valid
  | invalid
  | unknown
deriving DecidableEq

/-- `EmailDiscoveryResult` from src/emailDiscovery.ts. -/
structure EmailDiscoveryResult where
  emails : List JsStr
  patterns : List JsStr
  confidence : List (JsStr × Int)
  validationResults : List (JsStr × Validation)
  sources : List (JsStr × JsStr)

/-- `EMAIL_PATTERNS` from src/emailDiscovery.ts. -/
def EMAIL_PATTERNS : List JsStr :=
  [str "info", str "contact", str "sales", str "hello", str "support",
   str "admin", str "office", str "inquiries", str "team", str "mail"]

/-- `extractDomain` from src/emailDiscovery.ts: hostname with a leading "www."
removed; `none` when URL parsing throws. -/
def extractDomainED (parseHost : JsStr → Option JsStr) (website : JsStr) : Option JsStr :=
  match parseHost (withScheme website) with
  | some hostname =>
    some (if jsStartsWith hostname (str "www.") then hostname.drop 4 else hostname)
  | none => none

/-- The `businessName.toLowerCase().replace(/[^a-z0-9\s]/g, "")` cleanup. -/
def cleanBusinessName (businessName : JsStr) : JsStr :=
  (jsToLower businessName).filter fun c =>
    (decide ('a' ≤ c) && decide (c ≤ 'z')) || (decide ('0' ≤ c) && decide (c ≤ '9')) ||
      isWsChar c

/-- `s.split(/\s+/)[0]`: empty when `s` starts with whitespace, else the first
maximal run of non-whitespace characters. -/
def jsSplitWsHead (l : JsStr) : JsStr :=
  match l with
  | [] => []
  | c :: t => if isWsChar c then [] else (c :: t).takeWhile fun c2 => !isWsChar c2

/-- The business-name-derived local part of `generateEmailPatterns`
(lowercase, stripped of non-alphanumerics, trimmed, first word). -/
def firstWordCleanName (businessName : JsStr) : JsStr :=
  jsSplitWsHead (jsTrim (cleanBusinessName businessName))

/-- `generateEmailPatterns` from src/emailDiscovery.ts. -/
def generateEmailPatterns (parseHost : JsStr → Option JsStr)
    (businessName website : JsStr) : List JsStr :=
  match extractDomainED parseHost website with
  | none => []
  | some domain =>
    let common := EMAIL_PATTERNS.map fun p => p ++ '@' :: domain
    let cleanName := firstWordCleanName businessName
    let nameBased :=
      if 2 < cleanName.length then
        [cleanName ++ '@' :: domain, str "contact@" ++ cleanName ++ str ".com"]
      else []
    let industry :=
      [str "estimate", str "quote", str "service", str "booking", str "appointments"].map
        fun p => p ++ '@' :: domain
    setDedup (common ++ nameBased ++ industry)

/-- Character class `[a-zA-Z]`. -/
def isAlphaAscii (c : Char) : Bool :=
  (decide ('a' ≤ c) && decide (c ≤ 'z')) || (decide ('A' ≤ c) && decide (c ≤ 'Z'))

/-- Character class `[a-zA-Z0-9._%+-]` (local part of the email regex). -/
def isLocalChar (c : Char) : Bool :=
  isAlphaAscii c || (decide ('0' ≤ c) && decide (c ≤ '9')) ||
    c == '.' || c == '_' || c == '%' || c == '+' || c == '-'

/-- Character class `[a-zA-Z0-9.-]` (domain body of the email regex). -/
def isDomainChar (c : Char) : Bool :=
  isAlphaAscii c || (decide ('0' ≤ c) && decide (c ≤ '9')) || c == '.' || c == '-'

/-- Does `b` match `[a-zA-Z0-9.-]+\.[a-zA-Z]{2,}$` in full? Because the final
`[a-zA-Z]{2,}` is a maximal alphabetic suffix preceded by a literal '.', the
regex matches exactly when the maximal alphabetic suffix of `b` has length ≥ 2,
is preceded by '.', and the nonempty remainder consists of domain characters. -/
def emailDomainPartOk (b : JsStr) : Bool :=
  let alphaRun := b.reverse.takeWhile isAlphaAscii
  2 ≤ alphaRun.length &&
    (match b.reverse.drop alphaRun.length with
     | '.' :: m => !m.isEmpty && m.all isDomainChar
     | _ => false)

/-- `isValidEmailFormat` from src/emailDiscovery.ts: the anchored test
`/^[a-zA-Z0-9._%+-]+@[a-zA-Z0-9.-]+\.[a-zA-Z]{2,}$/.test(email)`. A match must
have exactly one '@' since no character class contains '@'. -/
def isValidEmailFormat (e : JsStr) : Bool :=
  match List.splitOn '@' e with
  | [localPart, domainPart] =>
    !localPart.isEmpty && localPart.all isLocalChar && emailDomainPartOk domainPart
  | _ => false

/-- The junk filter of `scrapeEmailsFromWebsite` applied to bare text matches. -/
def scrapeJunkOk (email : JsStr) : Bool :=
  let lower := jsToLower email
  !jsIncludes lower (str "example.com") && !jsIncludes lower (str "test.com") &&
    !jsIncludes lower (str "sample.com") && !jsIncludes lower (str "domain.com") &&
    !jsIncludes lower (str "yoursite.com") && !jsIncludes lower (str "yourdomain.com") &&
    !jsIncludes lower (str "noreply") && !jsIncludes lower (str "no-reply") &&
    !jsIncludes lower (str "mailer-daemon") && !jsIncludes lower (str "postmaster") &&
    !jsIncludes lower (str ".png") && !jsIncludes lower (str ".jpg") &&
    !jsEndsWith lower (str ".gif")

/-- Pure core of `scrapeEmailsFromWebsite` from src/emailDiscovery.ts, given the
two regex scans of the fetched HTML: the filtered bare matches followed by the
`mailto:` targets, deduplicated in insertion order. A failed or non-2xx fetch is
the case `textMatches = [] ∧ mailtoTargets = []`. -/
def scrapeEmailsFromWebsite (textMatches mailtoTargets : List JsStr) : List JsStr :=
  setDedup (textMatches.filter scrapeJunkOk ++ mailtoTargets)

/-- `scoreEmailConfidence` from src/emailDiscovery.ts. -/
def scoreEmailConfidence (email source : JsStr) (validationResult : Validation)
    (domain : JsStr) : Int :=
  let s1 : Int := 50 +
    (if source = str "scraped-mailto" then 30
     else if source = str "scraped-html" then 20
     else if source = str "pattern-common" then 10
     else 0)
  let s2 : Int := s1 +
    (if validationResult = Validation.valid then 20
     else if validationResult = Validation.invalid then -40
     else 0)
  let pfx := jsToLower ((List.splitOn '@' email).headD [])
  let s3 : Int := s2 +
    (if pfx ∈ [str "info", str "contact", str "hello", str "sales"] then 15
     else if pfx ∈ [str "support", str "admin", str "team"] then 10
     else if pfx ∈ [str "estimate", str "quote", str "service"] then 8
     else 0)
  let s4 : Int := s3 + (if jsIncludes email domain then 10 else 0)
  clamp s4 0 100

/-- Steps 1-2 of `discoverEmails`: the insertion-ordered candidate set and the
`sources` record (scraped emails tagged "scraped-html", then pattern emails
tagged "pattern-common" when not already present). -/
def discoverRaw (parseHost : JsStr → Option JsStr) (businessName website : JsStr)
    (scraped : List JsStr) : List JsStr × List (JsStr × JsStr) :=
  let step1 := scraped.foldl
    (fun (acc : List JsStr × List (JsStr × JsStr)) e =>
      (setAdd acc.1 (jsToLower e), rset acc.2 (jsToLower e) (str "scraped-html")))
    ([], [])
  let patternEmails := generateEmailPatterns parseHost businessName website
  patternEmails.foldl
    (fun (acc : List JsStr × List (JsStr × JsStr)) e =>
      (setAdd acc.1 (jsToLower e),
        if (rget acc.2 (jsToLower e)).isSome then acc.2
        else rset acc.2 (jsToLower e) (str "pattern-common")))
    step1

/-- Step 3 of `discoverEmails`: per-email validation and confidence records. -/
def discoverValidation (emailArray : List JsStr) (sources : List (JsStr × JsStr))
    (domain : JsStr) (hasMX : Bool) :
    List (JsStr × Validation) × List (JsStr × Int) :=
  emailArray.foldl
    (fun (acc : List (JsStr × Validation) × List (JsStr × Int)) e =>
      if !isValidEmailFormat e then (rset acc.1 e Validation.invalid, rset acc.2 e 0)
      else
        let v := if !hasMX then Validation.invalid else Validation.unknown
        (rset acc.1 e v,
          rset acc.2 e (scoreEmailConfidence e ((rget sources e).getD (str "")) v domain)))
    ([], [])

/-- The stable descending sort used for `.sort((a, b) => (confidence[b] || 0) -
(confidence[a] || 0))`: ECMAScript `Array.prototype.sort` is stable, and every
stable sort by this comparator yields the insertion sort with relation
`key b ≤ key a`. -/
def sortByKeyDesc {α : Type} (key : α → Int) (l : List α) : List α :=
  List.insertionSort (fun a b => key b ≤ key a) l

/-- `discoverEmails` from src/emailDiscovery.ts, over the host primitives:
`parseHost`, the scraped email list (`scrapeEmailsFromWebsite` output) and the
single MX-lookup result `hasMX`. -/
def discoverEmails (parseHost : JsStr → Option JsStr) (businessName website : JsStr)
    (scraped : List JsStr) (hasMX : Bool) : EmailDiscoveryResult :=
  match extractDomainED parseHost website with
  | none => ⟨[], [], [], [], []⟩
  | some domain =>
    let raw := discoverRaw parseHost businessName website scraped
    let emailArray := raw.1
    let sources := raw.2
    let patternEmails := generateEmailPatterns parseHost businessName website
    let vr := discoverValidation emailArray sources domain hasMX
    let validationResults := vr.1
    let confidence := vr.2
    let validEmails := sortByKeyDesc (fun e => (rget confidence e).getD 0)
      (emailArray.filter fun e => !(rget validationResults e == some Validation.invalid))
    { emails := validEmails, patterns := patternEmails, confidence := confidence,
      validationResults := validationResults, sources := sources }

/-- `getBestEmail` from src/emailDiscovery.ts. -/
def getBestEmail (result : EmailDiscoveryResult) : Option JsStr :=
  if result.emails.length = 0 then none else result.emails.head?

/-- `getEmailsByConfidence` from src/emailDiscovery.ts. -/
def getEmailsByConfidence (result : EmailDiscoveryResult) (minConfidence : Int) :
    List JsStr :=
  result.emails.filter fun email => minConfidence ≤ (rget result.confidence email).getD 0

/-! Lemmas about the stable descending sort. -/

theorem sortByKeyDesc_sorted {α : Type} (key : α → Int) (l : List α) :
    (sortByKeyDesc key l).Pairwise fun a b => key b ≤ key a := by
  letI ht : IsTotal α fun a b => key b ≤ key a := ⟨fun a b => le_total (key b) (key a)⟩
  letI htr : IsTrans α fun a b => key b ≤ key a :=
    ⟨fun a b c hab hbc => le_trans hbc hab⟩
  exact List.sorted_insertionSort _ l

theorem sortByKeyDesc_perm {α : Type} (key : α → Int) (l : List α) :
    (sortByKeyDesc key l).Perm l :=
  List.perm_insertionSort _ l

theorem filter_orderedInsert_eq {α : Type} (key : α → Int) (k : Int) (a : α)
    (l : List α) (ha : key a = k) :
    (List.orderedInsert (fun x y => key y ≤ key x) a l).filter
        (fun e => key e == k) =
      a :: l.filter (fun e => key e == k) := by
  induction l with
  | nil => simp [ha]
  | cons b t ih =>
    by_cases hab : key b ≤ key a
    · rw [List.orderedInsert, if_pos hab, List.filter_cons, List.filter_cons]
      simp [ha]
    · have hbk : ¬ key b == k := by
        subst ha
        simp only [beq_iff_eq]
        omega
      rw [List.orderedInsert, if_neg hab, List.filter_cons, List.filter_cons]
      simp only [hbk]
      simpa [hbk] using ih

theorem filter_orderedInsert_ne {α : Type} (key : α → Int) (k : Int) (a : α)
    (l : List α) (ha : key a ≠ k) :
    (List.orderedInsert (fun x y => key y ≤ key x) a l).filter
        (fun e => key e == k) =
      l.filter (fun e => key e == k) := by
  induction l with
  | nil => simp [ha]
  | cons b t ih =>
    by_cases hab : key b ≤ key a
    · rw [List.orderedInsert, if_pos hab, List.filter_cons, List.filter_cons]
      simp [ha]
    · rw [List.orderedInsert, if_neg hab, List.filter_cons, List.filter_cons]
      rw [ih]

/-- Stability of the sort: for each key value, the sorted list restricted to that
key value is the original list restricted to it. -/
theorem sortByKeyDesc_stable {α : Type} (key : α → Int) (l : List α) (k : Int) :
    (sortByKeyDesc key l).filter (fun e => key e == k) =
      l.filter (fun e => key e == k) := by
  induction l with
  | nil => rfl
  | cons a t ih =>
    show (List.orderedInsert _ a (List.insertionSort _ t)).filter _ = _
    by_cases ha : key a = k
    · rw [filter_orderedInsert_eq key k a _ ha]
      rw [List.filter_cons]
      simp only [ha, beq_self_eq_true, if_pos]
      exact congrArg _ ih
    · rw [filter_orderedInsert_ne key k a _ ha]
      rw [List.filter_cons]
      simp only [beq_iff_eq, ha, if_neg, if_false]
      exact ih

theorem head_max_of_pairwise {α : Type} (key : α → Int) (l : List α)
    (h : l.Pairwise fun a b => key b ≤ key a) {e b : α}
    (he : e ∈ l) (hb : l.head? = some b) : key e ≤ key b := by
  cases l with
  | nil => cases he
  | cons a t =>
    have hba : b = a := by simpa using hb.symm
    subst hba
    rcases List.mem_cons.mp he with rfl | hmem
    · exact le_refl _
    · exact (List.rel_of_pairwise_cons h) hmem

theorem getBestEmail_none_iff (R : EmailDiscoveryResult) :
    getBestEmail R = none ↔ R.emails = [] := by
  rcases h : R.emails with - | ⟨a, t⟩ <;> simp [getBestEmail, h]

/-- C4: on every discovery result, the returned email list contains no address
whose validation verdict is invalid; it is sorted descending by confidence and,
on each confidence value, keeps the candidate insertion order; `getBestEmail`
returns none exactly on the empty list, and otherwise its value has maximal
confidence among the returned addresses. -/
theorem discoverEmails_spec (parseHost : JsStr → Option JsStr)
    (businessName website : JsStr) (scraped : List JsStr) (hasMX : Bool)
    (R : EmailDiscoveryResult)
    (hR : discoverEmails parseHost businessName website scraped hasMX = R)
    (e : JsStr) (he : e ∈ R.emails) (k : Int) :
    rget R.validationResults e ≠ some Validation.invalid ∧
      R.emails.Pairwise (fun a b =>
        (rget R.confidence b).getD 0 ≤ (rget R.confidence a).getD 0) ∧
      (getBestEmail R = none ↔ R.emails = []) ∧
      (∀ b, getBestEmail R = some b →
        (rget R.confidence e).getD 0 ≤ (rget R.confidence b).getD 0) ∧
      R.emails.filter (fun x => (rget R.confidence x).getD 0 == k) =
        ((discoverRaw parseHost businessName website scraped).1.filter
          (fun x => !(rget R.validationResults x == some Validation.invalid))).filter
          (fun x => (rget R.confidence x).getD 0 == k) := by
  subst hR
  cases hd : extractDomainED parseHost website with
  | none =>
    exfalso
    simp only [discoverEmails, hd] at he
    cases he
  | some domain =>
    simp only [discoverEmails, hd] at he ⊢
    refine ⟨?_, ?_, getBestEmail_none_iff _, ?_, ?_⟩
    · have hmem : e ∈ (discoverRaw parseHost businessName website scraped).1.filter
          (fun x => !(rget (discoverValidation
            (discoverRaw parseHost businessName website scraped).1
            (discoverRaw parseHost businessName website scraped).2 domain hasMX).1 x ==
              some Validation.invalid)) :=
        (sortByKeyDesc_perm _ _).mem_iff.mp he
      have hp := List.of_mem_filter hmem
      simpa using hp
    · exact sortByKeyDesc_sorted _ _
    · intro b hb
      have hlen : ¬ (sortByKeyDesc (fun x =>
          (rget (discoverValidation
            (discoverRaw parseHost businessName website scraped).1
            (discoverRaw parseHost businessName website scraped).2 domain hasMX).2 x).getD 0)
          ((discoverRaw parseHost businessName website scraped).1.filter
            (fun x => !(rget (discoverValidation
              (discoverRaw parseHost businessName website scraped).1
              (discoverRaw parseHost businessName website scraped).2 domain hasMX).1 x ==
                some Validation.invalid)))).length = 0 := by
        intro h0
        rw [List.length_eq_zero] at h0
        rw [h0] at he
        cases he
      have hhead : (sortByKeyDesc (fun x =>
          (rget (discoverValidation
            (discoverRaw parseHost businessName website scraped).1
            (discoverRaw parseHost businessName website scraped).2 domain hasMX).2 x).getD 0)
          ((discoverRaw parseHost businessName website scraped).1.filter
            (fun x => !(rget (discoverValidation
              (discoverRaw parseHost businessName website scraped).1
              (discoverRaw parseHost businessName website scraped).2 domain hasMX).1 x ==
                some Validation.invalid)))).head? = some b := by
        simpa [getBestEmail, hlen] using hb
      exact head_max_of_pairwise _ _ (sortByKeyDesc_sorted _ _) he hhead
    · exact sortByKeyDesc_stable _ _ k

/-- Witness for C4 at a concrete discovery run. -/
theorem discoverEmails_spec_witness :
    str "bob@acme.com" ∈ (discoverEmails (fun _ => some (str "acme.com")) (str "Acme")
        (str "acme.com") [str "Bob@acme.com"] true).emails ∧
      rget (discoverEmails (fun _ => some (str "acme.com")) (str "Acme")
        (str "acme.com") [str "Bob@acme.com"] true).validationResults
          (str "bob@acme.com") ≠ some Validation.invalid :=
  ⟨by decide,
    (discoverEmails_spec (fun _ => some (str "acme.com")) (str "Acme") (str "acme.com")
      [str "Bob@acme.com"] true _ rfl (str "bob@acme.com") (by decide) 0).1⟩

/-! Supporting lemmas for C5: the "scraped-mailto" tag is never assigned. -/

theorem mem_rset {V : Type} {r : List (JsStr × V)} {k : JsStr} {v : V} {kv : JsStr × V}
    (h : kv ∈ rset r k v) : kv ∈ r ∨ kv.2 = v := by
  unfold rset at h
  split_ifs at h
  · rcases List.mem_map.mp h with ⟨p, hp, rfl⟩
    by_cases hpk : p.1 == k
    · simp [hpk]
    · simp only [hpk, if_neg, Bool.false_eq_true, if_false]
      exact Or.inl hp
  · rcases List.mem_append.mp h with hp | hp
    · exact Or.inl hp
    · right
      simp only [List.mem_singleton] at hp
      rw [hp]

theorem foldl_invariant {α β : Type} (P : β → Prop) (f : β → α → β)
    (hstep : ∀ b a, P b → P (f b a)) :
    ∀ (l : List α) (acc : β), P acc → P (l.foldl f acc) := by
  intro l
  induction l with
  | nil => intro acc h; exact h
  | cons a t ih =>
    intro acc h
    exact ih _ (hstep acc a h)

theorem discoverRaw_sources_vals (parseHost : JsStr → Option JsStr)
    (businessName website : JsStr) (scraped : List JsStr) :
    ∀ kv ∈ (discoverRaw parseHost businessName website scraped).2,
      kv.2 = str "scraped-html" ∨ kv.2 = str "pattern-common" := by
  unfold discoverRaw
  have P2 : ∀ (acc : List JsStr × List (JsStr × JsStr)),
      (∀ kv ∈ acc.2, kv.2 = str "scraped-html" ∨ kv.2 = str "pattern-common") →
      ∀ kv ∈ ((generateEmailPatterns parseHost businessName website).foldl
        (fun acc e =>
          (setAdd acc.1 (jsToLower e),
            if (rget acc.2 (jsToLower e)).isSome then acc.2
            else rset acc.2 (jsToLower e) (str "pattern-common")))
        acc).2, kv.2 = str "scraped-html" ∨ kv.2 = str "pattern-common" := by
    intro acc hacc
    refine foldl_invariant (fun (b : List JsStr × List (JsStr × JsStr)) =>
      ∀ kv ∈ b.2, kv.2 = str "scraped-html" ∨
        kv.2 = str "pattern-common") _ ?_ _ acc hacc
    intro b a hb kv hkv
    dsimp only at hkv
    split_ifs at hkv
    · exact hb kv hkv
    · rcases mem_rset hkv with hmem | hv
      · exact hb kv hmem
      · exact Or.inr hv
  refine P2 _ ?_
  refine foldl_invariant (fun (b : List JsStr × List (JsStr × JsStr)) =>
    ∀ kv ∈ b.2, kv.2 = str "scraped-html" ∨
      kv.2 = str "pattern-common") _ ?_ _ _ (by simp)
  intro b a hb kv hkv
  dsimp only at hkv
  rcases mem_rset hkv with hmem | hv
  · exact hb kv hmem
  · exact Or.inl hv

theorem rget_val_mem {V : Type} (r : List (JsStr × V)) (k : JsStr) (v : V)
    (h : rget r k = some v) : ∃ p ∈ r, p.2 = v := by
  induction r with
  | nil => cases h
  | cons a t ih =>
    obtain ⟨k1, v1⟩ := a
    unfold rget at h
    simp only [List.lookup] at h
    split at h
    · exact ⟨(k1, v1), List.mem_cons_self _ _, Option.some.inj h⟩
    · rcases ih h with ⟨p, hp, hv⟩
      exact ⟨p, List.mem_cons_of_mem _ hp, hv⟩

/-- No address in any discovery result ever carries the source tag
"scraped-mailto": the scraper merges mailto targets into the generic list and
`discoverEmails` tags every scraped address "scraped-html". -/
theorem sources_never_scraped_mailto (parseHost : JsStr → Option JsStr)
    (businessName website : JsStr) (scraped : List JsStr) (hasMX : Bool)
    (e s : JsStr)
    (h : rget (discoverEmails parseHost businessName website scraped hasMX).sources e =
      some s) : s ≠ str "scraped-mailto" := by
  cases hd : extractDomainED parseHost website with
  | none =>
    simp only [discoverEmails, hd] at h
    cases h
  | some domain =>
    simp only [discoverEmails, hd] at h
    rcases rget_val_mem _ _ _ h with ⟨p, hp, hv⟩
    rcases discoverRaw_sources_vals parseHost businessName website scraped p hp with h1 | h1 <;>
      rw [hv] at h1 <;> subst h1 <;> decide

/-- C5 (code bug): an address found only via a `mailto:` link in the fetched
HTML is recorded with source tag "scraped-html" (confidence bonus +20), not the
higher-trust "scraped-mailto" tag (+30) the specification describes; that branch
of `scoreEmailConfidence` is unreachable from `discoverEmails`. -/
theorem mailto_address_tagged_scraped_html :
    rget (discoverEmails (fun _ => some (str "acme.com")) (str "Acme") (str "acme.com")
        (scrapeEmailsFromWebsite [] [str "info@acme.com"]) true).sources
      (str "info@acme.com") = some (str "scraped-html") ∧
      rget (discoverEmails (fun _ => some (str "acme.com")) (str "Acme") (str "acme.com")
          (scrapeEmailsFromWebsite [] [str "info@acme.com"]) true).sources
        (str "info@acme.com") ≠ some (str "scraped-mailto") ∧
      rget (discoverEmails (fun _ => some (str "acme.com")) (str "Acme") (str "acme.com")
          (scrapeEmailsFromWebsite [] [str "info@acme.com"]) true).confidence
        (str "info@acme.com") = some 95 := by
  decide

/-! Supporting lemmas for C9. -/

/-- The part of an address after its first '@'. -/
def afterAt (e : JsStr) : JsStr := (e.dropWhile fun c => !(c == '@')).drop 1

theorem afterAt_append (p d : JsStr) (hp : '@' ∉ p) : afterAt (p ++ '@' :: d) = d := by
  induction p with
  | nil => simp [afterAt]
  | cons c t ih =>
    have hc : ¬ c == '@' := by
      simp only [beq_iff_eq]
      intro h
      exact hp (h ▸ List.mem_cons_self c t)
    have ht : '@' ∉ t := fun h => hp (List.mem_cons_of_mem c h)
    rw [List.cons_append, afterAt, List.dropWhile_cons_of_pos (by simpa using hc)]
    exact ih ht

theorem jsSplitWsHead_subset (l : JsStr) : jsSplitWsHead l ⊆ l := by
  cases l with
  | nil => simp [jsSplitWsHead]
  | cons c t =>
    simp only [jsSplitWsHead]
    split_ifs
    · simp
    · exact (List.takeWhile_sublist _).subset

theorem jsTrim_subset (l : JsStr) : jsTrim l ⊆ l := by
  unfold jsTrim
  intro c hc
  rw [List.mem_reverse] at hc
  have h1 := (List.dropWhile_sublist (l := (l.dropWhile isWsChar).reverse)
    (p := isWsChar)).subset hc
  rw [List.mem_reverse] at h1
  exact (List.dropWhile_sublist (l := l) (p := isWsChar)).subset h1

theorem firstWordCleanName_no_at (businessName : JsStr) :
    '@' ∉ firstWordCleanName businessName := by
  intro h
  have h1 := jsSplitWsHead_subset _ h
  have h2 := jsTrim_subset _ h1
  unfold cleanBusinessName at h2
  have h3 := List.of_mem_filter h2
  exact absurd h3 (by decide)

/-- C9 counterexample: with business name "Joes Plumbing" and website
joesplumbing.net (domain parses), `generateEmailPatterns` emits
"contact@joes.com", whose part after '@' is not the extracted domain. -/
theorem generateEmailPatterns_offdomain :
    str "contact@joes.com" ∈ generateEmailPatterns (fun _ => some (str "joesplumbing.net"))
        (str "Joes Plumbing") (str "joesplumbing.net") ∧
      extractDomainED (fun _ => some (str "joesplumbing.net")) (str "joesplumbing.net") =
        some (str "joesplumbing.net") ∧
      afterAt (str "contact@joes.com") ≠ str "joesplumbing.net" := by
  decide

/-- C9 amended: when the website's domain parses, every address generated by
`generateEmailPatterns` is at the extracted domain (its part after '@' equals
that domain), except possibly the single business-name-derived guess
`contact@<first-word>.com`. -/
theorem generateEmailPatterns_at_domain (parseHost : JsStr → Option JsStr)
    (businessName website d : JsStr)
    (hd : extractDomainED parseHost website = some d) :
    ∀ e ∈ generateEmailPatterns parseHost businessName website,
      afterAt e = d ∨
        e = str "contact@" ++ firstWordCleanName businessName ++ str ".com" := by
  intro e he
  simp only [generateEmailPatterns, hd] at he
  rw [mem_setDedup] at he
  simp only [List.mem_append, List.mem_map] at he
  rcases he with (⟨p, hp, rfl⟩ | hname) | ⟨p, hp, rfl⟩
  · left
    refine afterAt_append p d ?_
    have hall : ∀ q ∈ EMAIL_PATTERNS, '@' ∉ q := by decide
    exact hall p hp
  · by_cases hlen : 2 < (firstWordCleanName businessName).length
    · rw [if_pos hlen] at hname
      rcases List.mem_cons.mp hname with rfl | hname2
      · left
        exact afterAt_append _ d (firstWordCleanName_no_at businessName)
      · right
        simpa using hname2
    · rw [if_neg hlen] at hname
      cases hname
  · left
    refine afterAt_append p d ?_
    have hall : ∀ q ∈ [str "estimate", str "quote", str "service", str "booking",
        str "appointments"], '@' ∉ q := by decide
    exact hall p hp

/-- Witness for the amended C9 at a concrete input. -/
theorem generateEmailPatterns_at_domain_witness :
    extractDomainED (fun _ => some (str "acme.com")) (str "acme.com") =
        some (str "acme.com") ∧
      str "info@acme.com" ∈ generateEmailPatterns (fun _ => some (str "acme.com"))
        (str "Alpha") (str "acme.com") ∧
      (afterAt (str "info@acme.com") = str "acme.com" ∨
        str "info@acme.com" =
          str "contact@" ++ firstWordCleanName (str "Alpha") ++ str ".com") :=
  ⟨by decide, by decide,
    generateEmailPatterns_at_domain (fun _ => some (str "acme.com")) (str "Alpha")
      (str "acme.com") (str "acme.com") (by decide) (str "info@acme.com") (by decide)⟩

/-!
## src/websiteIntelligence.ts

The single `fetch` is modeled by a `FetchOutcome` parameter: a thrown
network/timeout error with its message, or a response with status, status text,
the `x-powered-by` header and the HTML body. The substring-based detectors are
implemented directly; the genuinely regex-based extractions (Calendly URL
capture, contact-page href capture, employee-count pattern matches, team-section
image count, founded-year pattern matches, service-area city captures) are
modeled as the `HtmlRegexFacts` parameter holding the match results of the
`RegExp` host primitive, with the source's own post-processing (first-match
selection, year range check, [3,100] image count check, dedup and cap at 10)
implemented. `currentYear` models `new Date().getFullYear()`. -/

/-- `TechnologyStack` (the fields the extractor actually writes). -/
structure TechnologyStack where
  cms : Option JsStr
  analytics : List JsStr
  chatWidgets : List JsStr
  bookingSystems : List JsStr
deriving DecidableEq

/-- `ContactMethods` from src/websiteIntelligence.ts. -/
structure ContactMethods where
  hasContactForm : Bool
  hasLiveChat : Bool
  hasBookingSystem : Bool
  hasPhoneClick : Bool
  contactFormUrl : Option JsStr
  bookingUrl : Option JsStr
deriving DecidableEq

/-- `BusinessIntelligence` (the fields the extractor actually writes). -/
structure BusinessIntelligence where
  employeeCount : Option Int
  foundedYear : Option Int
  certifications : List JsStr
  serviceAreas : List JsStr
deriving DecidableEq

/-- `WebsiteIntelligenceResult`; `dataQuality.completeness` is flattened into
the `completeness` field. -/
structure WebsiteIntelligenceResult where
  technology : TechnologyStack
  contactMethods : ContactMethods
  businessIntel : BusinessIntelligence
  completeness : Int
  rawFindings : List JsStr

/-- Regex-engine results over the fetched HTML (host primitive). -/
structure HtmlRegexFacts where
  calendlyUser : Option JsStr
  contactHref : Option JsStr
  employeeMatches : List Int
  teamSectionImgCount : Option Int
  foundedMatches : List Int
  serviceAreaCities : List JsStr

/-- Outcome of the single `fetch` of the website. -/
inductive FetchOutcome where
  | fetchError (msg : JsStr)
  | response (status : Int) (statusText : JsStr) (xPoweredBy : Option JsStr) (html : JsStr)

/-- `Response.ok`: status in the 2xx range. -/
def responseOk (status : Int) : Bool := decide (200 ≤ status) && decide (status < 300)

/-- `detectCMS` from src/websiteIntelligence.ts. -/
def detectCMS (html : JsStr) (xPoweredBy : Option JsStr) : Option JsStr :=
  let lower := jsToLower html
  if jsIncludes lower (str "wp-content") || jsIncludes lower (str "wordpress") then
    some (str "WordPress")
  else if jsIncludes lower (str "shopify") || jsIncludes lower (str "cdn.shopify.com") then
    some (str "Shopify")
  else if jsIncludes lower (str "wixsite") || jsIncludes lower (str "wix.com") then
    some (str "Wix")
  else if jsIncludes lower (str "squarespace") then some (str "Squarespace")
  else if jsIncludes lower (str "webflow") then some (str "Webflow")
  else if jsIncludes lower (str "weebly") then some (str "Weebly")
  else if jsIncludes lower (str "godaddy") then some (str "GoDaddy Website Builder")
  else
    match xPoweredBy with
    | some h =>
      let serverHeader := jsToLower h
      if jsIncludes serverHeader (str "wordpress") then some (str "WordPress")
      else if jsIncludes serverHeader (str "wix") then some (str "Wix")
      else none
    | none => none

/-- `detectAnalytics` from src/websiteIntelligence.ts. -/
def detectAnalytics (html : JsStr) : List JsStr :=
  let lower := jsToLower html
  (if jsIncludes lower (str "google-analytics") || jsIncludes lower (str "googletagmanager")
    then [str "Google Analytics"] else []) ++
  (if jsIncludes lower (str "facebook.com/tr") || jsIncludes lower (str "fbevents")
    then [str "Facebook Pixel"] else []) ++
  (if jsIncludes lower (str "hotjar") then [str "Hotjar"] else []) ++
  (if jsIncludes lower (str "mixpanel") then [str "Mixpanel"] else [])

/-- `detectChatWidgets` from src/websiteIntelligence.ts. -/
def detectChatWidgets (html : JsStr) : List JsStr :=
  let lower := jsToLower html
  (if jsIncludes lower (str "intercom") || jsIncludes lower (str "intercomcdn")
    then [str "Intercom"] else []) ++
  (if jsIncludes lower (str "drift.com") || jsIncludes lower (str "js.driftt.com")
    then [str "Drift"] else []) ++
  (if jsIncludes lower (str "tawk.to") || jsIncludes lower (str "tawkto")
    then [str "Tawk.to"] else []) ++
  (if jsIncludes lower (str "livechat") then [str "LiveChat"] else []) ++
  (if jsIncludes lower (str "zendesk") || jsIncludes lower (str "zdassets")
    then [str "Zendesk Chat"] else []) ++
  (if jsIncludes lower (str "crisp.chat") then [str "Crisp"] else [])

/-- `detectBookingSystems` from src/websiteIntelligence.ts; the Calendly URL
capture comes from the regex facts. -/
def detectBookingSystems (html : JsStr) (calendlyUser : Option JsStr) :
    List JsStr × List JsStr :=
  let lower := jsToLower html
  let calendly :=
    if jsIncludes lower (str "calendly") then
      ([str "Calendly"],
        match calendlyUser with
        | some u => [str "https://calendly.com/" ++ u]
        | none => [])
    else ([], [])
  let rest :=
    (if jsIncludes lower (str "acuityscheduling") then [str "Acuity Scheduling"] else []) ++
    (if jsIncludes lower (str "squareup.com") && jsIncludes lower (str "appointments")
      then [str "Square Appointments"] else []) ++
    (if jsIncludes lower (str "scheduleonce") || jsIncludes lower (str "oncehub")
      then [str "ScheduleOnce"] else []) ++
    (if jsIncludes lower (str "setmore") then [str "Setmore"] else []) ++
    (if jsIncludes lower (str "simplybook") then [str "SimplyBook.me"] else [])
  (calendly.1 ++ rest, calendly.2)

/-- `detectContactForm` from src/websiteIntelligence.ts; the href capture comes
from the regex facts. -/
def detectContactForm (html : JsStr) (contactHref : Option JsStr) :
    Bool × Option JsStr :=
  let lower := jsToLower html
  let hasForm := jsIncludes lower (str "<form") || jsIncludes lower (str "contact") ||
    jsIncludes lower (str "get in touch") || jsIncludes lower (str "send message")
  (hasForm, contactHref)

/-- `extractEmployeeCount` from src/websiteIntelligence.ts: first pattern match,
else the team-section image count when it lies in [3,100]. -/
def extractEmployeeCount (facts : HtmlRegexFacts) : Option Int :=
  match facts.employeeMatches with
  | n :: _ => some n
  | [] =>
    match facts.teamSectionImgCount with
    | some imgCount => if 3 ≤ imgCount ∧ imgCount ≤ 100 then some imgCount else none
    | none => none

/-- `extractFoundedYear` from src/websiteIntelligence.ts: the first pattern
match whose year lies in [1900, currentYear]. -/
def extractFoundedYear (facts : HtmlRegexFacts) (currentYear : Int) : Option Int :=
  facts.foundedMatches.find? fun y => decide (1900 ≤ y) && decide (y ≤ currentYear)

/-- The `commonCerts` vocabulary of `extractCertifications`. -/
def commonCerts : List JsStr :=
  [str "BBB Accredited", str "Licensed & Insured", str "Certified", str "ISO Certified",
   str "Insured", str "Bonded", str "Veteran Owned", str "Woman Owned",
   str "Minority Owned", str "Green Certified", str "Energy Star Partner"]

/-- `extractCertifications` from src/websiteIntelligence.ts. -/
def extractCertifications (html : JsStr) : List JsStr :=
  let lower := jsToLower html
  commonCerts.filter fun cert => jsIncludes lower (jsToLower cert)

/-- `extractServiceAreas` from src/websiteIntelligence.ts: the regex captures,
deduplicated and capped at 10. -/
def extractServiceAreas (facts : HtmlRegexFacts) : List JsStr :=
  (setDedup facts.serviceAreaCities).take 10

/-- `createEmptyResult` from src/websiteIntelligence.ts. -/
def createEmptyResult (rawFindings : List JsStr) : WebsiteIntelligenceResult :=
  { technology := { cms := none, analytics := [], chatWidgets := [], bookingSystems := [] },
    contactMethods :=
      { hasContactForm := false, hasLiveChat := false, hasBookingSystem := false,
        hasPhoneClick := false, contactFormUrl := none, bookingUrl := none },
    businessIntel :=
      { employeeCount := none, foundedYear := none, certifications := [], serviceAreas := [] },
    completeness := 0,
    rawFindings := rawFindings }

/-- `Math.round(html.length / 1024)` on a natural length. -/
def roundKB (n : Nat) : Nat := (n + 512) / 1024

/-- `extractWebsiteIntelligence` from src/websiteIntelligence.ts, over the fetch
outcome and regex facts. -/
def extractWebsiteIntelligence (website : JsStr) (outcome : FetchOutcome)
    (facts : HtmlRegexFacts) (currentYear : Int) : WebsiteIntelligenceResult :=
  let url := withScheme website
  let findings0 := [str "Fetching " ++ url ++ str "..."]
  match outcome with
  | FetchOutcome.fetchError msg =>
    createEmptyResult (findings0 ++ [str "Error: " ++ msg])
  | FetchOutcome.response status statusText xPoweredBy html =>
    if !responseOk status then
      createEmptyResult (findings0 ++
        [str "HTTP " ++ (toString status).data ++ str ": " ++ statusText])
    else
      let findings1 := findings0 ++
        [str "Fetched " ++ (toString (roundKB html.length)).data ++ str "KB of HTML"]
      let cms := detectCMS html xPoweredBy
      let analytics := detectAnalytics html
      let chatWidgets := detectChatWidgets html
      let booking := detectBookingSystems html facts.calendlyUser
      let findings2 := findings1 ++
        (match cms with | some c => [str "CMS: " ++ c] | none => []) ++
        (if analytics.isEmpty then []
          else [str "Analytics: " ++ List.intercalate (str ", ") analytics]) ++
        (if chatWidgets.isEmpty then []
          else [str "Chat: " ++ List.intercalate (str ", ") chatWidgets]) ++
        (if booking.1.isEmpty then []
          else [str "Booking: " ++ List.intercalate (str ", ") booking.1])
      let contactForm := detectContactForm html facts.contactHref
      let hasLiveChat := !chatWidgets.isEmpty
      let hasBookingSystem := !booking.1.isEmpty
      let hasPhoneClick := jsIncludes (jsToLower html) (str "tel:")
      let employeeCount := extractEmployeeCount facts
      let foundedYear := extractFoundedYear facts currentYear
      let certifications := extractCertifications html
      let serviceAreas := extractServiceAreas facts
      let findings3 := findings2 ++
        (match employeeCount with
          | some n => [str "Employees: ~" ++ (toString n).data] | none => []) ++
        (match foundedYear with
          | some y => [str "Founded: " ++ (toString y).data] | none => []) ++
        (if certifications.isEmpty then []
          else [str "Certs: " ++ List.intercalate (str ", ") certifications]) ++
        (if serviceAreas.isEmpty then []
          else [str "Service areas: " ++ (toString serviceAreas.length).data ++
            str " found"])
      let completeness : Int :=
        (if cms.isSome then 15 else 0) + (if !analytics.isEmpty then 10 else 0) +
        (if contactForm.1 then 15 else 0) + (if hasLiveChat then 10 else 0) +
        (if hasBookingSystem then 15 else 0) + (if employeeCount.isSome then 15 else 0) +
        (if foundedYear.isSome then 10 else 0) + (if !certifications.isEmpty then 10 else 0)
      { technology :=
          { cms := cms, analytics := analytics, chatWidgets := chatWidgets,
            bookingSystems := booking.1 },
        contactMethods :=
          { hasContactForm := contactForm.1, hasLiveChat := hasLiveChat,
            hasBookingSystem := hasBookingSystem, hasPhoneClick := hasPhoneClick,
            contactFormUrl := contactForm.2, bookingUrl := booking.2.head? },
        businessIntel :=
          { employeeCount := employeeCount, foundedYear := foundedYear,
            certifications := certifications, serviceAreas := serviceAreas },
        completeness := min 100 completeness,
        rawFindings := findings3 }

/-- Does the fetch outcome fail (thrown error or non-2xx status)? -/
def outcomeFails (outcome : FetchOutcome) : Bool :=
  match outcome with
  | FetchOutcome.fetchError _ => true
  | FetchOutcome.response status _ _ _ => !responseOk status

/-- C7: on a thrown network/timeout error or a non-2xx response,
`extractWebsiteIntelligence` returns (it never propagates a failure) the
all-empty snapshot: no technology, all contact-method flags false, empty
business intel, completeness 0, with a non-empty findings log whose last entry
describes the failure. -/
theorem intelligence_fails_soft (website : JsStr) (outcome : FetchOutcome)
    (facts : HtmlRegexFacts) (currentYear : Int)
    (h : outcomeFails outcome = true) :
    (extractWebsiteIntelligence website outcome facts currentYear).technology =
        { cms := none, analytics := [], chatWidgets := [], bookingSystems := [] } ∧
      (extractWebsiteIntelligence website outcome facts currentYear).contactMethods =
        { hasContactForm := false, hasLiveChat := false, hasBookingSystem := false,
          hasPhoneClick := false, contactFormUrl := none, bookingUrl := none } ∧
      (extractWebsiteIntelligence website outcome facts currentYear).businessIntel =
        { employeeCount := none, foundedYear := none, certifications := [],
          serviceAreas := [] } ∧
      (extractWebsiteIntelligence website outcome facts currentYear).completeness = 0 ∧
      (extractWebsiteIntelligence website outcome facts currentYear).rawFindings ≠ [] := by
  cases outcome with
  | fetchError msg =>
    simp [extractWebsiteIntelligence, createEmptyResult]
  | response status statusText xPoweredBy html =>
    have hst : responseOk status = false := by simpa [outcomeFails] using h
    simp [extractWebsiteIntelligence, createEmptyResult, hst]

/-- Witness for C7: a timeout-style thrown fetch error yields the empty snapshot. -/
theorem intelligence_fails_soft_witness :
    outcomeFails (FetchOutcome.fetchError (str "The operation was aborted")) = true ∧
      (extractWebsiteIntelligence (str "acme.com")
        (FetchOutcome.fetchError (str "The operation was aborted"))
        ⟨none, none, [], none, [], []⟩ 2026).completeness = 0 :=
  ⟨by decide,
    (intelligence_fails_soft (str "acme.com")
      (FetchOutcome.fetchError (str "The operation was aborted"))
      ⟨none, none, [], none, [], []⟩ 2026 (by decide)).2.2.2.1⟩

/-!
## src/socialVerifier.ts

The network is modeled by oracles: `checkUrlExists` as a boolean `probe` (its
HEAD request, redirect handling and timeout are outside the repository), and the
two best-effort metrics scrapes as functions to optional metrics. The fetch of
the business website inside `extractSocialsFromWebsite` is modeled by a
`fetchOk` flag plus the four per-platform regex match results. The name-cleanup
expression `businessName.toLowerCase().replace(/[^a-z0-9\s]/g, "")` is the same
as in src/emailDiscovery.ts (`cleanBusinessName`). `verifySocialProfiles`
additionally returns the chronological log of existence probes (platform, url)
so that temporal claims about probing are statable. -/

/-- The six platforms of `VerifiedSocialProfile`. -/
inductive Platform where
  | linkedin
  | facebook
  | instagram
  | twitter
  | yelp
  | bbb
deriving DecidableEq

/-- Metrics scraped best-effort (only `followers` is ever written). -/
structure SocialMetrics where
  followers : Option Int
deriving DecidableEq

/-- `VerifiedSocialProfile` from src/socialVerifier.ts (`exists` is named
`profileExists`). -/
structure VerifiedSocialProfile where
  url : JsStr
  platform : Platform
  profileExists : Bool
  confidence : Int
  metrics : Option SocialMetrics
deriving DecidableEq

/-- The `summary` part of `SocialVerificationResult`. -/
structure SocialSummary where
  totalFound : Int
  platforms : List Platform
  bestProfile : Option JsStr

/-- `SocialVerificationResult` from src/socialVerifier.ts. -/
structure SocialVerificationResult where
  profiles : List VerifiedSocialProfile
  summary : SocialSummary

/-- `s.replace(/\s+/g, sep)`: collapse every whitespace run to one separator. -/
def collapseWsTo (sep : Char) : JsStr → JsStr
  | [] => []
  | c :: rest =>
    if isWsChar c then sep :: collapseWsTo sep (rest.dropWhile isWsChar)
    else c :: collapseWsTo sep rest
termination_by l => l.length
decreasing_by
  · simp only [List.length_cons]
    exact Nat.lt_succ_of_le (List.Sublist.length_le (List.dropWhile_sublist _))
  · simp only [List.length_cons]
    exact Nat.lt_succ_self _

/-- The legal-suffix alternatives of the LinkedIn slug regex. -/
def LEGAL_SUFFIXES : List JsStr :=
  [str "llc", str "inc", str "corp", str "ltd", str "limited", str "company",
   str "co", str "group"]

/-- `cleanName.replace(/\s+(llc|inc|corp|ltd|limited|company|co|group)\s*$/i, "")`:
remove a final legal-suffix word together with the whitespace before it and any
trailing whitespace; unchanged when the last word is not a listed suffix or has
no whitespace before it. -/
def stripLegalSuffix (l : JsStr) : JsStr :=
  let rev := l.reverse.dropWhile isWsChar
  let w := rev.takeWhile fun c => !isWsChar c
  let rest := rev.drop w.length
  if w.reverse ∈ LEGAL_SUFFIXES ∧ rest ≠ [] then (rest.dropWhile isWsChar).reverse
  else l

/-- `generateLinkedInUrls` from src/socialVerifier.ts. -/
def generateLinkedInUrls (businessName : JsStr) : List JsStr :=
  let cleanName := cleanBusinessName businessName
  let slug1 := collapseWsTo '-' cleanName
  let firstWord := jsSplitWsHead cleanName
  let slug3 := cleanName.filter fun c => !isWsChar c
  let withoutSuffixes := collapseWsTo '-' (stripLegalSuffix cleanName)
  setDedup
    ([str "https://www.linkedin.com/company/" ++ slug1] ++
      (if 2 < firstWord.length then
        [str "https://www.linkedin.com/company/" ++ firstWord] else []) ++
      [str "https://www.linkedin.com/company/" ++ slug3] ++
      [str "https://www.linkedin.com/company/" ++ withoutSuffixes])

/-- `generateFacebookUrls` from src/socialVerifier.ts. -/
def generateFacebookUrls (businessName : JsStr) : List JsStr :=
  let cleanName := cleanBusinessName businessName
  let slug1 := cleanName.filter fun c => !isWsChar c
  let slug2 := collapseWsTo '.' cleanName
  let firstWord := jsSplitWsHead cleanName
  setDedup
    ([str "https://www.facebook.com/" ++ slug1, str "https://www.facebook.com/" ++ slug2] ++
      (if 2 < firstWord.length then [str "https://www.facebook.com/" ++ firstWord] else []))

/-- `generateInstagramUrls` from src/socialVerifier.ts. -/
def generateInstagramUrls (businessName : JsStr) : List JsStr :=
  let cleanName := cleanBusinessName businessName
  let slug1 := collapseWsTo '_' cleanName
  let slug2 := cleanName.filter fun c => !isWsChar c
  let firstWord := jsSplitWsHead cleanName
  setDedup
    ([str "https://www.instagram.com/" ++ slug1 ++ str "/",
      str "https://www.instagram.com/" ++ slug2 ++ str "/"] ++
      (if 2 < firstWord.length then
        [str "https://www.instagram.com/" ++ firstWord ++ str "/"] else []))

/-- One per-platform probing loop (`for url of urls { checkUrlExists(url) ... }`):
probes in order until the first hit; returns the probed urls in order and the
winning url. -/
def probeFirst (urls : List JsStr) (probe : JsStr → Bool) :
    List JsStr × Option JsStr :=
  match urls with
  | [] => ([], none)
  | u :: rest =>
    if probe u then ([u], some u)
    else
      let r := probeFirst rest probe
      (u :: r.1, r.2)

/-- Network oracles of the social verifier. -/
structure SocialNetOracle where
  probe : JsStr → Bool
  linkedinMetrics : JsStr → Option SocialMetrics
  facebookMetrics : JsStr → Option SocialMetrics

/-- The four per-platform regex matches of `extractSocialsFromWebsite` on the
fetched HTML (capture group 1), `none` when the pattern does not match. -/
structure SocialLinkMatches where
  linkedinMatch : Option JsStr
  facebookMatch : Option JsStr
  instagramMatch : Option JsStr
  twitterMatch : Option JsStr

/-- `extractSocialsFromWebsite` from src/socialVerifier.ts: one profile per
matched platform at confidence 95; empty on a thrown fetch or non-ok response. -/
def extractSocialsFromWebsite (fetchOk : Bool) (m : SocialLinkMatches) :
    List VerifiedSocialProfile :=
  if !fetchOk then []
  else
    (match m.linkedinMatch with
      | some u => [⟨u, Platform.linkedin, true, 95, none⟩]
      | none => []) ++
    (match m.facebookMatch with
      | some u => [⟨u, Platform.facebook, true, 95, none⟩]
      | none => []) ++
    (match m.instagramMatch with
      | some u => [⟨u, Platform.instagram, true, 95, none⟩]
      | none => []) ++
    (match m.twitterMatch with
      | some u => [⟨u, Platform.twitter, true, 95, none⟩]
      | none => [])

/-- One of steps 2-4 of `verifySocialProfiles`: guess-and-probe platform `t`
unless a profile for it is already present (`!profiles.find(...)`); returns the
grown profile list and the probe log of this step. -/
def addGuessed (profiles : List VerifiedSocialProfile) (t : Platform)
    (urls : List JsStr) (probe : JsStr → Bool)
    (mk : JsStr → VerifiedSocialProfile) :
    List VerifiedSocialProfile × List (Platform × JsStr) :=
  if profiles.any fun q => q.platform == t then (profiles, [])
  else
    let r := probeFirst urls probe
    (profiles ++ (match r.2 with | some u => [mk u] | none => []),
      r.1.map fun u => (t, u))

/-- `verifySocialProfiles` from src/socialVerifier.ts, over the network oracles,
additionally returning the chronological log of existence probes. -/
def verifySocialProfiles (businessName : JsStr) (website : Option JsStr)
    (fetchOk : Bool) (m : SocialLinkMatches) (net : SocialNetOracle) :
    SocialVerificationResult × List (Platform × JsStr) :=
  let profiles0 :=
    match website with
    | some _ => extractSocialsFromWebsite fetchOk m
    | none => []
  let s1 := addGuessed profiles0 Platform.linkedin (generateLinkedInUrls businessName)
    net.probe fun u => ⟨u, Platform.linkedin, true, 85, net.linkedinMetrics u⟩
  let s2 := addGuessed s1.1 Platform.facebook (generateFacebookUrls businessName)
    net.probe fun u => ⟨u, Platform.facebook, true, 80, net.facebookMetrics u⟩
  let s3 := addGuessed s2.1 Platform.instagram (generateInstagramUrls businessName)
    net.probe fun u => ⟨u, Platform.instagram, true, 75, none⟩
  let sorted := sortByKeyDesc (fun q => q.confidence) s3.1
  ({ profiles := sorted,
     summary :=
       { totalFound := (sorted.length : Int),
         platforms := sorted.map (·.platform),
         bestProfile := sorted.head?.map (·.url) } },
    s1.2 ++ s2.2 ++ s3.2)

/-! Supporting lemmas for C8. -/

theorem any_platform_of_mem_map {l : List VerifiedSocialProfile} {p : Platform}
    (h : p ∈ l.map (·.platform)) : (l.any fun q => q.platform == p) = true := by
  rcases List.mem_map.mp h with ⟨x, hx, rfl⟩
  exact List.any_eq_true.mpr ⟨x, hx, by simp⟩

theorem addGuessed_sub (profiles : List VerifiedSocialProfile) (t : Platform)
    (urls : List JsStr) (probe : JsStr → Bool) (mk : JsStr → VerifiedSocialProfile) :
    profiles ⊆ (addGuessed profiles t urls probe mk).1 := by
  unfold addGuessed
  split_ifs
  · exact fun x h => h
  · exact fun x h => List.mem_append_left _ h

theorem addGuessed_filter_nil (profiles : List VerifiedSocialProfile) (t : Platform)
    (urls : List JsStr) (probe : JsStr → Bool) (mk : JsStr → VerifiedSocialProfile)
    (p : Platform)
    (hin : p = t → (profiles.any fun q => q.platform == p) = true) :
    (addGuessed profiles t urls probe mk).2.filter (fun e => e.1 == p) = [] := by
  by_cases hpt : p = t
  · subst hpt
    unfold addGuessed
    rw [if_pos (hin rfl)]
    rfl
  · unfold addGuessed
    split_ifs
    · rfl
    · refine List.filter_eq_nil_iff.mpr ?_
      intro e he
      rcases List.mem_map.mp he with ⟨u, hu, rfl⟩
      simp only [beq_iff_eq]
      exact fun h => hpt h.symm

theorem addGuessed_nodup (profiles : List VerifiedSocialProfile) (t : Platform)
    (urls : List JsStr) (probe : JsStr → Bool) (mk : JsStr → VerifiedSocialProfile)
    (hmk : ∀ u, (mk u).platform = t)
    (hnd : (profiles.map (·.platform)).Nodup) :
    ((addGuessed profiles t urls probe mk).1.map (·.platform)).Nodup := by
  simp only [addGuessed]
  split_ifs with hany
  · exact hnd
  · cases hr : (probeFirst urls probe).2 with
    | none => simpa using hnd
    | some u =>
      simp only [hr, List.map_append, List.map_cons, List.map_nil]
      rw [List.nodup_append]
      refine ⟨hnd, List.nodup_singleton _, ?_⟩
      intro x hx hx2
      have hxt : x = t := by
        rcases List.mem_singleton.mp hx2 with rfl
        exact hmk u
      subst hxt
      have := any_platform_of_mem_map hx
      rw [this] at hany
      exact hany rfl

theorem extract_platforms_nodup (fetchOk : Bool) (m : SocialLinkMatches) :
    ((extractSocialsFromWebsite fetchOk m).map (·.platform)).Nodup := by
  obtain ⟨m1, m2, m3, m4⟩ := m
  unfold extractSocialsFromWebsite
  split_ifs
  · simp
  · cases m1 <;> cases m2 <;> cases m3 <;> cases m4 <;> simp

/-- C8: during one run of `verifySocialProfiles` with a website, a platform
already found via website-link extraction is never probed by URL guessing (the
probe log holds no entry for it), and the final profile list has at most one
record per platform (the platform list is duplicate-free). -/
theorem social_no_reprobe_and_unique (businessName w : JsStr) (fetchOk : Bool)
    (m : SocialLinkMatches) (net : SocialNetOracle) (p : Platform)
    (hp : p ∈ (extractSocialsFromWebsite fetchOk m).map (·.platform)) :
    ((verifySocialProfiles businessName (some w) fetchOk m net).2.filter
        (fun e => e.1 == p)).length = 0 ∧
      ((verifySocialProfiles businessName (some w) fetchOk m net).1.profiles.map
        (·.platform)).Nodup := by
  constructor
  · simp only [verifySocialProfiles]
    rw [List.filter_append, List.filter_append]
    rw [addGuessed_filter_nil _ _ _ _ _ p (by
      intro hpe
      subst hpe
      exact any_platform_of_mem_map hp)]
    rw [addGuessed_filter_nil _ _ _ _ _ p (by
      intro hpe
      subst hpe
      exact any_platform_of_mem_map (List.map_subset _ (addGuessed_sub _ _ _ _ _) hp))]
    rw [addGuessed_filter_nil _ _ _ _ _ p (by
      intro hpe
      subst hpe
      exact any_platform_of_mem_map (List.map_subset _
        ((addGuessed_sub _ _ _ _ _).trans (addGuessed_sub _ _ _ _ _)) hp))]
    rfl
  · simp only [verifySocialProfiles]
    have h0 := extract_platforms_nodup fetchOk m
    have h1 := addGuessed_nodup (extractSocialsFromWebsite fetchOk m) Platform.linkedin
      (generateLinkedInUrls businessName) net.probe
      (fun u => ⟨u, Platform.linkedin, true, 85, net.linkedinMetrics u⟩)
      (fun u => rfl) h0
    have h2 := addGuessed_nodup _ Platform.facebook
      (generateFacebookUrls businessName) net.probe
      (fun u => ⟨u, Platform.facebook, true, 80, net.facebookMetrics u⟩)
      (fun u => rfl) h1
    have h3 := addGuessed_nodup _ Platform.instagram
      (generateInstagramUrls businessName) net.probe
      (fun u => ⟨u, Platform.instagram, true, 75, none⟩)
      (fun u => rfl) h2
    have hperm := (sortByKeyDesc_perm (fun q : VerifiedSocialProfile => q.confidence)
      ((addGuessed ((addGuessed ((addGuessed (extractSocialsFromWebsite fetchOk m)
        Platform.linkedin (generateLinkedInUrls businessName) net.probe
        (fun u => ⟨u, Platform.linkedin, true, 85, net.linkedinMetrics u⟩)).1)
        Platform.facebook (generateFacebookUrls businessName) net.probe
        (fun u => ⟨u, Platform.facebook, true, 80, net.facebookMetrics u⟩)).1)
        Platform.instagram (generateInstagramUrls businessName) net.probe
        (fun u => ⟨u, Platform.instagram, true, 75, none⟩)).1)).map (·.platform)
    exact hperm.nodup_iff.mpr h3

/-- Witness for C8: linkedin found on the website is never probed, and the final
platforms are duplicate-free, with an always-succeeding probe oracle. -/
theorem social_no_reprobe_and_unique_witness :
    Platform.linkedin ∈ (extractSocialsFromWebsite true
        ⟨some (str "https://www.linkedin.com/company/acme"), none, none, none⟩).map
        (·.platform) ∧
      ((verifySocialProfiles (str "Acme Co") (some (str "acme.com")) true
          ⟨some (str "https://www.linkedin.com/company/acme"), none, none, none⟩
          ⟨fun _ => true, fun _ => none, fun _ => none⟩).2.filter
        (fun e => e.1 == Platform.linkedin)).length = 0 :=
  ⟨by decide,
    (social_no_reprobe_and_unique (str "Acme Co") (str "acme.com") true
      ⟨some (str "https://www.linkedin.com/company/acme"), none, none, none⟩
      ⟨fun _ => true, fun _ => none, fun _ => none⟩ Platform.linkedin (by decide)).1⟩

end LeadMiner
